import Mathlib

/-!
Shallow embedding of the my-othello game server (src/server.ts) and the solo
block-puzzle client engine (src/components/BlockPuzzleGame.tsx), together with
theorems settling the specification claims about room lifecycle, Othello move
handling, and the block-puzzle placement/clear/score/termination logic.

Cells are `Option String` mirroring the `(string | null)[][]` boards of the
source; client-supplied coordinates are `Int` (arbitrary numbers over the
wire); JavaScript out-of-range array reads, which yield `undefined`, are
modelled as `Option` lookups, and a read that would throw a TypeError in the
source (indexing into `undefined`) is modelled as a distinguished `crash`
handler outcome.
-/

set_option maxRecDepth 8000

namespace MyOthello

/-- A board cell: `none` is an empty cell (`null` in the source), `some c`
holds the owner color string. -/
abbrev Cell := Option String

/-- A board: row-major list of rows, mirroring `(string | null)[][]`. -/
abbrev Board := List (List Cell)

/-- In-bounds read `board[r][c]` for indices already validated by the source. -/
def getCell (b : Board) (r c : Nat) : Cell :=
  (b.getD r []).getD c none

/-- In-bounds read with `Int` coordinates (used only under bounds guards). -/
def getCellI (b : Board) (r c : Int) : Cell :=
  getCell b r.toNat c.toNat

/-- Write `board[r][c] = v` (a no-op out of range, as `List.set` is). -/
def setCell (b : Board) (r c : Nat) (v : Cell) : Board :=
  b.set r ((b.getD r []).set c v)

/-- Write through `Int` coordinates already validated non-negative. -/
def setCellI (b : Board) (r c : Int) (v : Cell) : Board :=
  setCell b r.toNat c.toNat v

/-- JavaScript `board[r]`: `undefined` (here `none`) when `r` is out of range. -/
def rowAtI (b : Board) (r : Int) : Option (List Cell) :=
  if 0 ≤ r ∧ r.toNat < b.length then some (b.getD r.toNat []) else none

/-- JavaScript `row[c]`: `undefined` (here `none`) when `c` is out of range;
`some cell` gives the stored cell (which may itself be `null` = `none`). -/
def cellAtI (row : List Cell) (c : Int) : Option Cell :=
  if 0 ≤ c ∧ c.toNat < row.length then some (row.getD c.toNat none) else none

/-- The board is an `n` by `n` matrix. -/
def Dims (n : Nat) (b : Board) : Prop :=
  b.length = n ∧ ∀ row ∈ b, row.length = n

instance (n : Nat) (b : Board) : Decidable (Dims n b) := by
  unfold Dims; infer_instance

-- ### Othello helpers (src/server.ts lines 17-58)

/-- The 8 compass directions scanned by the Othello engine. -/
def directions : List (Int × Int) :=
  [(-1, -1), (-1, 0), (-1, 1), (0, -1), (0, 1), (1, -1), (1, 0), (1, 1)]

/-- The ternary opponent swap between the black and white color strings. -/
def opponentOf (color : String) : String :=
  if color == "black" then "white" else "black"

/-- Bounds test `0 <= r < 8 && 0 <= c < 8` used by the Othello scans. -/
def inB8 (r c : Int) : Bool :=
  decide (0 ≤ r ∧ r < 8 ∧ 0 ≤ c ∧ c < 8)

/-- The run of opponent cells scanned by the `while` loop walking from
`(r, c)` in direction `(dr, dc)`: positions `(r + k*dr, c + k*dc)` for
`k = 1, 2, ...` as long as they are in bounds and hold the opponent color
(at most 7 steps fit on an 8 by 8 board, so 8 iterations are exhaustive). -/
def rayRun (b : Board) (opp : String) (r c dr dc : Int) : List (Int × Int) :=
  ((List.range 8).map (fun k => (r + ((k : Int) + 1) * dr, c + ((k : Int) + 1) * dc))).takeWhile
    (fun p => inB8 p.1 p.2 && getCellI b p.1 p.2 == some opp)

/-- Whether scanning from `(r, c)` in direction `(dr, dc)` finds a non-empty
opponent run terminated by a `color` cell (the capture test of
`hasValidMoves`). -/
def dirCapture (b : Board) (color opp : String) (r c dr dc : Int) : Bool :=
  let run := rayRun b opp r c dr dc
  let nr := r + ((run.length : Int) + 1) * dr
  let nc := c + ((run.length : Int) + 1) * dc
  run.length != 0 && inB8 nr nc && getCellI b nr nc == some color

/-- The per-cell body of `hasValidMoves`: the cell is empty and some
direction yields a capture. -/
def isLegalMoveCell (b : Board) (color : String) (r c : Nat) : Bool :=
  getCell b r c == none &&
    directions.any (fun d => dirCapture b color (opponentOf color) r c d.1 d.2)

/-- `hasValidMoves(board, color)` (src/server.ts lines 18-48). -/
def hasValidMoves (b : Board) (color : String) : Bool :=
  (List.range 8).any fun r => (List.range 8).any fun c =>
    isLegalMoveCell b color r c

/-- Stone counts, the result shape of `countScore` (src/server.ts 50-58). -/
structure Scores where
  black : Nat
  white : Nat
deriving DecidableEq, Repr

/-- `countScore(board)` (src/server.ts lines 50-58). -/
def countScore (b : Board) : Scores :=
  { black := (b.map (fun row => (row.filter (fun cell => cell == some "black")).length)).sum
    white := (b.map (fun row => (row.filter (fun cell => cell == some "white")).length)).sum }

/-- One direction of the flip loop in the `make_move` handler
(src/server.ts lines 267-279): collect the opponent run from the current
board; if it is terminated by a `color` cell and non-empty, flip every
collected cell to `color`. -/
def applyDir (b : Board) (color opp : String) (row col : Int) (d : Int × Int) : Board :=
  let run := rayRun b opp row col d.1 d.2
  let nr := row + ((run.length : Int) + 1) * d.1
  let nc := col + ((run.length : Int) + 1) * d.2
  if inB8 nr nc && getCellI b nr nc == some color && run.length != 0 then
    run.foldl (fun acc p => setCellI acc p.1 p.2 (some color)) b
  else b

/-- The board mutation of an applied Othello move: place the stone, then
process the 8 directions in order against the evolving board. -/
def applyMoveBoard (b : Board) (color : String) (row col : Int) : Board :=
  directions.foldl (fun acc d => applyDir acc color (opponentOf color) row col d)
    (setCellI b row col (some color))

-- ### Shape catalog (src/constants.ts)

/-- A puzzle shape definition from the static catalog. -/
structure ShapeDef where
  id : String
  matrix : List (List Nat)
  colorKey : String
  difficulty : Nat
  category : String
deriving DecidableEq, Repr

/-- `PUZZLE_SHAPES` from src/constants.ts. -/
def PUZZLE_SHAPES : List ShapeDef := [
  ⟨"I2", [[1, 1]], "green", 1, "easy"⟩,
  ⟨"I2_V", [[1], [1]], "green", 1, "easy"⟩,
  ⟨"I3", [[1, 1, 1]], "blue", 2, "easy"⟩,
  ⟨"I3_V", [[1], [1], [1]], "blue", 2, "easy"⟩,
  ⟨"I4", [[1, 1, 1, 1]], "indigo", 2, "easy"⟩,
  ⟨"I4_V", [[1], [1], [1], [1]], "indigo", 2, "easy"⟩,
  ⟨"SQR2", [[1, 1], [1, 1]], "red", 2, "easy"⟩,
  ⟨"SQR3", [[1, 1, 1], [1, 1, 1], [1, 1, 1]], "purple", 3, "easy"⟩,
  ⟨"RECT2x3", [[1, 1, 1], [1, 1, 1]], "lime", 3, "easy"⟩,
  ⟨"RECT3x2", [[1, 1], [1, 1], [1, 1]], "lime", 3, "easy"⟩,
  ⟨"L3", [[1, 0], [1, 1]], "purple", 1, "medium"⟩,
  ⟨"L3_R", [[0, 1], [1, 1]], "purple", 1, "medium"⟩,
  ⟨"L3_V", [[1, 1], [1, 0]], "purple", 1, "medium"⟩,
  ⟨"L3_VR", [[1, 1], [0, 1]], "purple", 1, "medium"⟩,
  ⟨"T3_D", [[1, 1, 1], [0, 1, 0]], "pink", 2, "medium"⟩,
  ⟨"T3_U", [[0, 1, 0], [1, 1, 1]], "pink", 2, "medium"⟩,
  ⟨"T3_L", [[0, 1], [1, 1], [0, 1]], "pink", 2, "medium"⟩,
  ⟨"T3_R", [[1, 0], [1, 1], [1, 0]], "pink", 2, "medium"⟩,
  ⟨"Z3_H", [[1, 1, 0], [0, 1, 1]], "teal", 2, "medium"⟩,
  ⟨"Z3_V", [[0, 1], [1, 1], [1, 0]], "teal", 2, "medium"⟩,
  ⟨"S3_H", [[0, 1, 1], [1, 1, 0]], "teal", 2, "medium"⟩,
  ⟨"S3_V", [[1, 0], [1, 1], [0, 1]], "teal", 2, "medium"⟩,
  ⟨"I5", [[1, 1, 1, 1, 1]], "yellow", 3, "hard"⟩,
  ⟨"I5_V", [[1], [1], [1], [1], [1]], "yellow", 3, "hard"⟩,
  ⟨"L5_0", [[1, 0, 0], [1, 0, 0], [1, 1, 1]], "orange", 4, "complex"⟩,
  ⟨"L5_90", [[1, 1, 1], [1, 0, 0], [1, 0, 0]], "orange", 4, "complex"⟩,
  ⟨"L5_180", [[1, 1, 1], [0, 0, 1], [0, 0, 1]], "orange", 4, "complex"⟩,
  ⟨"L5_270", [[0, 0, 1], [0, 0, 1], [1, 1, 1]], "orange", 4, "complex"⟩,
  ⟨"V5_0", [[1, 1, 1], [1, 0, 0], [1, 0, 0]], "pink", 4, "complex"⟩,
  ⟨"V5_90", [[1, 1, 1], [0, 0, 1], [0, 0, 1]], "pink", 4, "complex"⟩,
  ⟨"V5_180", [[0, 0, 1], [0, 0, 1], [1, 1, 1]], "pink", 4, "complex"⟩,
  ⟨"V5_270", [[1, 0, 0], [1, 0, 0], [1, 1, 1]], "pink", 4, "complex"⟩]

-- ### Puzzle helpers (src/server.ts lines 60-95)

/-- `canPlace(grid, matrix, r, c)` (src/server.ts lines 61-75): every filled
matrix cell must land in the 10 by 10 bounds on an empty grid cell. -/
def canPlace (grid : Board) (matrix : List (List Nat)) (r c : Int) : Bool :=
  let rows := matrix.length
  let cols := (matrix.headD []).length
  (List.range rows).all fun i =>
    (List.range cols).all fun j =>
      if (matrix.getD i []).getD j 0 == 1 then
        let nr := r + (i : Int)
        let nc := c + (j : Int)
        if nr < 0 ∨ 10 ≤ nr ∨ nc < 0 ∨ 10 ≤ nc then false
        else getCellI grid nr nc == none
      else true

/-- `getRandomShapes(count)` (src/server.ts lines 77-83); the
`Math.random()` draws are supplied by the `rng` stream, and
`Math.floor(Math.random() * PUZZLE_SHAPES.length)` becomes a reduction
modulo the catalog size. -/
def getRandomShapes (rng : Nat → Nat) (count : Nat) : List ShapeDef :=
  (List.range count).map fun i =>
    PUZZLE_SHAPES.getD (rng i % PUZZLE_SHAPES.length) ⟨"", [], "", 0, ""⟩

/-- `hasAnyValidMove(grid, hand)` (src/server.ts lines 85-95). -/
def hasAnyValidMove (grid : Board) (hand : List (Option ShapeDef)) : Bool :=
  hand.any fun s =>
    match s with
    | none => false
    | some shape =>
      (List.range 10).any fun r => (List.range 10).any fun c =>
        canPlace grid shape.matrix (r : Int) (c : Int)

-- ### Room state (src/server.ts lines 122-144)

inductive RoomType
| OTHELLO
| PUZZLE
deriving DecidableEq, Repr

inductive Status
| WAITING
| PLAYING
| FINISHED
| ABORTED
deriving DecidableEq, Repr

structure Player where
  id : String
  name : String
  color : String
deriving DecidableEq, Repr

/-- The two per-seat puzzle hands. -/
structure Hands where
  black : List (Option ShapeDef)
  white : List (Option ShapeDef)
deriving DecidableEq, Repr

/-- The authoritative room object. -/
structure Room where
  type : RoomType
  board : Board
  turn : String
  players : List Player
  status : Status
  hands : Option Hands
  scores : Option Scores
deriving DecidableEq, Repr

/-- `room.hands[color]` object lookup for the two real seat colors. -/
def handOf (h : Hands) (color : String) : List (Option ShapeDef) :=
  if color == "black" then h.black else h.white

/-- `room.scores[color]` object lookup for the two real seat colors. -/
def scoreOf (s : Scores) (color : String) : Nat :=
  if color == "black" then s.black else s.white

/-- Events emitted back through the socket layer. -/
inductive Event
| init_game (color roomId : String)
| waiting_opponent
| game_start (board : Board) (turn : String)
| update_board (board : Board) (turn : String)
| notice (msg : String)
| game_over (board : Board) (winner : String) (blackScore whiteScore : Nat)
| error_message (msg : String)
| init_puzzle_game (color roomId : String)
| puzzle_start (board : Board) (turn : String) (hands : Hands) (scores : Scores)
| update_puzzle_state (board : Board) (turn : String) (hands : Hands)
    (scores : Scores) (lastRow lastCol : Int) (shapeId : String)
| puzzle_game_over (winner reason : String) (board : Board) (scores : Scores)
| player_left
deriving DecidableEq, Repr

/-- Outcome of one socket event handler invocation on a room: the handler
either returns early leaving the room untouched (`noop`), throws a
JavaScript TypeError (`crash`), or commits a new room state and emits
events (`ok`). -/
inductive HandlerResult
| noop
| crash
| ok (room : Room) (events : List Event)
deriving DecidableEq, Repr

/-- Board resulting from an `ok` outcome. -/
def resultBoard : HandlerResult → Option Board
  | .ok room _ => some room.board
  | _ => none

/-- Scores resulting from an `ok` outcome. -/
def resultScores : HandlerResult → Option Scores
  | .ok room _ => room.scores
  | _ => none

-- ### Othello move handler (src/server.ts lines 255-300)

/-- The validated tail of the `make_move` handler (src/server.ts lines
262-299): place the stone, flip in all 8 directions, then run the turn
resolution cascade (opponent moves, else mover moves again with a pass
notice, else the game finishes on stone counts). -/
def othello_apply (room : Room) (row col : Int) : HandlerResult :=
  let color := room.turn
  let newBoard := applyMoveBoard room.board color row col
  let opponent := opponentOf color
  let nextCanMove := hasValidMoves newBoard opponent
  let currentCanMove := hasValidMoves newBoard color
  if nextCanMove then
    .ok { room with board := newBoard, turn := opponent }
      [Event.update_board newBoard opponent]
  else if currentCanMove then
    .ok { room with board := newBoard }
      [Event.update_board newBoard color,
       Event.notice (opponent.toUpper ++ " has no moves! PASS.")]
  else
    let scores := countScore newBoard
    let winner :=
      if scores.white > scores.black then "white"
      else if scores.black > scores.white then "black"
      else "draw"
    .ok { room with board := newBoard, status := Status.FINISHED }
      [Event.game_over newBoard winner scores.black scores.white]

/-- The `make_move` socket handler. `_senderId` is the connection that sent
the event; the source never reads it (the move is attributed to
`room.turn`). Reading `room.board[row]` out of range yields `undefined` and
the subsequent `[col]` access throws, hence `crash`. -/
def make_move (_senderId : String) (room? : Option Room) (row col : Int) : HandlerResult :=
  match room? with
  | none => .noop
  | some room =>
    if room.status != Status.PLAYING || room.type != RoomType.OTHELLO then .noop
    else
      match rowAtI room.board row with
      | none => .crash
      | some rowList =>
        match cellAtI rowList col with
        | none => .noop
        | some cell =>
          if cell != none then .noop
          else othello_apply room row col

/-- The fresh room created by the first `join_room` on an unseen id
(src/server.ts lines 160-172). -/
def initialOthelloBoard : Board :=
  setCell (setCell (setCell (setCell
    (List.replicate 8 (List.replicate 8 (none : Cell))) 3 3 (some "white"))
    3 4 (some "black")) 4 3 (some "black")) 4 4 (some "white")

-- ### Puzzle move handler (src/server.ts lines 303-390)

/-- JavaScript `hand[shapeIndex]`: an out-of-range index reads `undefined`,
an in-range `null` slot reads `null`; both fail the `!shape` guard, so both
collapse to `none` here. -/
def handAt (hand : List (Option ShapeDef)) (i : Int) : Option ShapeDef :=
  if 0 ≤ i ∧ i.toNat < hand.length then hand.getD i.toNat none else none

/-- The placement loop of the `puzzle_move` handler (src/server.ts lines
320-328): paint every filled matrix cell with the player color and count
the painted cells. -/
def placeShape (b : Board) (matrix : List (List Nat)) (row col : Int)
    (color : String) : Board × Nat :=
  let rows := matrix.length
  let cols := (matrix.headD []).length
  (List.range rows).foldl (fun acc i =>
    (List.range cols).foldl (fun acc2 j =>
      if (matrix.getD i []).getD j 0 == 1 then
        (setCellI acc2.1 (row + (i : Int)) (col + (j : Int)) (some color), acc2.2 + 1)
      else acc2) acc) (b, 0)

/-- `rowsToClear` of an `n` by `n` board: the indices of fully occupied rows
(src/server.ts line 336, with `n = 10`). -/
def fullRowsN (n : Nat) (b : Board) : List Nat :=
  (List.range n).filter fun r => (b.getD r []).all (fun cell => cell != none)

/-- `colsToClear` of an `n` by `n` board: the indices of fully occupied
columns (src/server.ts lines 337-341, with `n = 10`). -/
def fullColsN (n : Nat) (b : Board) : List Nat :=
  (List.range n).filter fun c => (List.range n).all fun r => getCell b r c != none

/-- `rowsToClear.forEach(r => { for c: board[r][c] = null })`
(src/server.ts line 348). -/
def clearRowsN (n : Nat) (b : Board) (rows : List Nat) : Board :=
  rows.foldl (fun acc r =>
    (List.range n).foldl (fun acc2 c => setCell acc2 r c none) acc) b

/-- `colsToClear.forEach(c => { for r: board[r][c] = null })`
(src/server.ts line 349). -/
def clearColsN (n : Nat) (b : Board) (cols : List Nat) : Board :=
  cols.foldl (fun acc c =>
    (List.range n).foldl (fun acc2 r => setCell acc2 r c none) acc) b

/-- The validated tail of the `puzzle_move` handler (src/server.ts lines
319-390): paint the shape, drop it from the hand, detect and clear full
lines, credit the move score, refill the hand if it emptied, switch the
turn, and finish the game if the seat now to move has no legal placement. -/
def puzzle_apply (rng : Nat → Nat) (room : Room) (hands : Hands) (scores : Scores)
    (shape : ShapeDef) (shapeIndex row col : Int) : HandlerResult :=
  let color := room.turn
  let hand := handOf hands color
  let placed := placeShape room.board shape.matrix row col color
  let board1 := placed.1
  let placementScore := placed.2
  let hand1 := hand.set shapeIndex.toNat none
  let rowsToClear := fullRowsN 10 board1
  let colsToClear := fullColsN 10 board1
  let totalLines := rowsToClear.length + colsToClear.length
  let moveScore :=
    if totalLines > 0 then placementScore + totalLines * 100
    else placementScore
  let board2 :=
    if totalLines > 0 then
      clearColsN 10 (clearRowsN 10 board1 rowsToClear) colsToClear
    else board1
  let scores1 :=
    if color == "black" then { scores with black := scores.black + moveScore }
    else { scores with white := scores.white + moveScore }
  let hand2 :=
    if hand1.all (fun h => h == none) then (getRandomShapes rng 3).map some
    else hand1
  let hands1 :=
    if color == "black" then { hands with black := hand2 }
    else { hands with white := hand2 }
  let nextTurn := opponentOf color
  let nextHand := handOf hands1 nextTurn
  let canNextMove := hasAnyValidMove board2 nextHand
  if !canNextMove then
    .ok { room with
          board := board2
          turn := nextTurn
          hands := some hands1
          scores := some scores1
          status := Status.FINISHED }
      [Event.puzzle_game_over color "no_moves" board2 scores1]
  else
    .ok { room with
          board := board2
          turn := nextTurn
          hands := some hands1
          scores := some scores1 }
      [Event.update_puzzle_state board2 nextTurn hands1 scores1 row col shape.id]

/-- The `puzzle_move` socket handler (src/server.ts lines 303-390).
`_senderId` is the sending connection, which the source deliberately never
consults (it trusts `room.turn`); `rng` supplies the `Math.random()` draws
of a potential hand refill. `room.hands[color]` for a turn value that is
neither seat color would read `undefined` and the following `[shapeIndex]`
would throw, hence the `crash` arm (unreachable from handler-built rooms,
whose turn is always a seat color). -/
def puzzle_move (_senderId : String) (rng : Nat → Nat) (room? : Option Room)
    (shapeIndex row col : Int) : HandlerResult :=
  match room? with
  | none => .noop
  | some room =>
    if room.status != Status.PLAYING || room.type != RoomType.PUZZLE then .noop
    else
      let color := room.turn
      match room.hands, room.scores with
      | some hands, some scores =>
        if color != "black" && color != "white" then .crash
        else
          match handAt (handOf hands color) shapeIndex with
          | none => .noop
          | some shape =>
            if !canPlace room.board shape.matrix row col then .noop
            else puzzle_apply rng room hands scores shape shapeIndex row col
      | _, _ => .noop

-- Derived abbreviations naming the intermediate values of `puzzle_apply`
-- (the handler locals `board1`, `placementScore`, `totalLines`, `board2`,
-- `moveScore`, `scores1`, `hand2`, `hands1`), for use in statements.

/-- The post-placement board (local `board1` of `puzzle_apply`). -/
def placedBoard (room : Room) (shape : ShapeDef) (row col : Int) : Board :=
  (placeShape room.board shape.matrix row col room.turn).1

/-- The number of painted cells (local `placementScore` of `puzzle_apply`). -/
def placedCount (room : Room) (shape : ShapeDef) (row col : Int) : Nat :=
  (placeShape room.board shape.matrix row col room.turn).2

/-- The number of cleared lines (local `totalLines` of `puzzle_apply`). -/
def totalLinesOf (room : Room) (shape : ShapeDef) (row col : Int) : Nat :=
  (fullRowsN 10 (placedBoard room shape row col)).length +
    (fullColsN 10 (placedBoard room shape row col)).length

/-- The board after clearing (local `board2` of `puzzle_apply`). -/
def boardAfterClear (room : Room) (shape : ShapeDef) (row col : Int) : Board :=
  if totalLinesOf room shape row col > 0 then
    clearColsN 10
      (clearRowsN 10 (placedBoard room shape row col)
        (fullRowsN 10 (placedBoard room shape row col)))
      (fullColsN 10 (placedBoard room shape row col))
  else placedBoard room shape row col

/-- The score credited for the move (local `moveScore` of `puzzle_apply`). -/
def moveScoreOf (room : Room) (shape : ShapeDef) (row col : Int) : Nat :=
  if totalLinesOf room shape row col > 0 then
    placedCount room shape row col + totalLinesOf room shape row col * 100
  else placedCount room shape row col

/-- The updated score table (local `scores1` of `puzzle_apply`). -/
def scoresAfter (room : Room) (scores : Scores) (shape : ShapeDef)
    (row col : Int) : Scores :=
  if room.turn == "black" then
    { scores with black := scores.black + moveScoreOf room shape row col }
  else
    { scores with white := scores.white + moveScoreOf room shape row col }

/-- The mover hand after removal and possible batch refill
(local `hand2` of `puzzle_apply`). -/
def handAfter (rng : Nat → Nat) (room : Room) (hands : Hands)
    (shapeIndex : Int) : List (Option ShapeDef) :=
  let hand1 := (handOf hands room.turn).set shapeIndex.toNat none
  if hand1.all (fun h => h == none) then (getRandomShapes rng 3).map some
  else hand1

/-- The updated hand table (local `hands1` of `puzzle_apply`). -/
def handsAfter (rng : Nat → Nat) (room : Room) (hands : Hands)
    (shapeIndex : Int) : Hands :=
  if room.turn == "black" then
    { hands with black := handAfter rng room hands shapeIndex }
  else
    { hands with white := handAfter rng room hands shapeIndex }

-- ### Join handlers (src/server.ts lines 152-251)

/-- The fresh puzzle room board: a 10 by 10 empty grid. -/
def initialPuzzleBoard : Board :=
  List.replicate 10 (List.replicate 10 (none : Cell))

/-- The `join_room` socket handler for Othello (src/server.ts lines
152-196), restricted to the single addressed room entry: creates the room
if absent, rejects a wrong-kind or full room, otherwise seats the joiner
(black first, then white) and on the second seat flips status to Playing
and broadcasts the start snapshot. -/
def join_room (socketId playerName roomId : String) (room? : Option Room) :
    Room × List Event :=
  let room0 :=
    match room? with
    | some r => r
    | none =>
      { type := RoomType.OTHELLO, board := initialOthelloBoard, turn := "black",
        players := [], status := Status.WAITING, hands := none, scores := none }
  if room0.type != RoomType.OTHELLO then
    (room0, [Event.error_message "Room exists but is not for Othello!"])
  else if room0.players.length ≥ 2 then
    (room0, [Event.error_message "Room is full!"])
  else
    let color := if room0.players.length == 0 then "black" else "white"
    let room1 := { room0 with players := room0.players ++ [⟨socketId, playerName, color⟩] }
    if room1.players.length == 1 then
      (room1, [Event.init_game color roomId, Event.waiting_opponent])
    else
      ({ room1 with status := Status.PLAYING },
       [Event.init_game color roomId, Event.game_start room1.board room1.turn])

/-- The `join_puzzle_room` socket handler (src/server.ts lines 199-251),
restricted to the single addressed room entry. `rng` supplies the
`Math.random()` draws for dealing the initial hands; on the second join the
source re-deals a hand only if its array is empty (length 0, never the case
for handler-built rooms). -/
def join_puzzle_room (rng rng2 : Nat → Nat) (socketId playerName roomId : String)
    (room? : Option Room) : Room × List Event :=
  let room0 :=
    match room? with
    | some r => r
    | none =>
      { type := RoomType.PUZZLE, board := initialPuzzleBoard, turn := "black",
        players := [], status := Status.WAITING,
        hands := some { black := (getRandomShapes rng 3).map some,
                        white := (getRandomShapes rng2 3).map some },
        scores := some { black := 0, white := 0 } }
  if room0.type != RoomType.PUZZLE then
    (room0, [Event.error_message "Room exists but is not for Block Puzzle!"])
  else if room0.players.length ≥ 2 then
    (room0, [Event.error_message "Room is full!"])
  else
    let color := if room0.players.length == 0 then "black" else "white"
    let room1 := { room0 with players := room0.players ++ [⟨socketId, playerName, color⟩] }
    if room1.players.length == 1 then
      (room1, [Event.init_puzzle_game color roomId, Event.waiting_opponent])
    else
      let hands1 :=
        match room1.hands with
        | none => none
        | some h =>
          some { black := if h.black.length == 0 then (getRandomShapes rng 3).map some else h.black,
                 white := if h.white.length == 0 then (getRandomShapes rng2 3).map some else h.white }
      let room2 := { room1 with status := Status.PLAYING, hands := hands1 }
      (room2,
       [Event.init_puzzle_game color roomId] ++
       (match room2.hands, room2.scores with
        | some h, some s => [Event.puzzle_start room2.board room2.turn h s]
        | _, _ => []))

-- ### Solo client scoring engine (src/components/BlockPuzzleGame.tsx)

/-- `BASE_SCORES` from src/constants.ts: base points per simultaneous
line-clear count. -/
def BASE_SCORES (n : Nat) : Option Nat :=
  match n with
  | 1 => some 30
  | 2 => some 80
  | 3 => some 200
  | 4 => some 500
  | 5 => some 1000
  | 6 => some 2000
  | 7 => some 3500
  | 8 => some 5000
  | _ => none

/-- `BASE_SCORES[totalLines] || (totalLines * 50)`. -/
def baseLineScore (totalLines : Nat) : Nat :=
  match BASE_SCORES totalLines with
  | some v => v
  | none => totalLines * 50

/-- The all-clear test of the solo client: every occupied cell of the 8 by 8
post-placement grid lies in a cleared row or column. -/
def isAllClear8 (grid : Board) (rowsToClear colsToClear : List Nat) : Bool :=
  (List.range 8).all fun r => (List.range 8).all fun c =>
    !(getCell grid r c != none && !(rowsToClear.contains r) && !(colsToClear.contains c))

/-- The outcome of one solo placement resolution: the score gained by the
whole move, the updated combo and miss-streak counters, and the grid after
any clears. -/
structure ClearResult where
  scoreDelta : Nat
  combo : Nat
  movesSinceClear : Nat
  grid : Board
deriving DecidableEq, Repr

/-- The pure state transition of the solo client `checkLinesAndScore`
(src/components/BlockPuzzleGame.tsx lines 625-706) combined with the
`setScore(prev => prev + placementScore)` of the drop handler: given the
post-placement 8 by 8 grid, the placed cell count, and the current combo and
miss-streak counters, compute the total score gained by the move, the new
counters, and the cleared grid. -/
def checkLinesAndScore (grid : Board) (placementScore combo movesSinceClear : Nat) :
    ClearResult :=
  let rowsToClear := fullRowsN 8 grid
  let colsToClear := fullColsN 8 grid
  let totalLines := rowsToClear.length + colsToClear.length
  if totalLines > 0 then
    let newCombo := combo + totalLines
    let lineScore := baseLineScore totalLines * newCombo
    let allClear := isAllClear8 grid rowsToClear colsToClear
    { scoreDelta := placementScore + lineScore + (if allClear then 300 else 0)
      combo := newCombo
      movesSinceClear := 0
      grid := clearColsN 8 (clearRowsN 8 grid rowsToClear) colsToClear }
  else
    let newMovesSinceClear := movesSinceClear + 1
    let limit := if combo ≥ 10 then 3 else 2
    if newMovesSinceClear > limit then
      { scoreDelta := placementScore, combo := 0, movesSinceClear := 0, grid := grid }
    else
      { scoreDelta := placementScore, combo := combo,
        movesSinceClear := newMovesSinceClear, grid := grid }

-- ### Spec-side clearing (for the refinement comparison of claim C6)

/-- The clear operation as the specification words it (spec section 4.2,
resolveClear): every cell belonging to any full row or any full column is
reset to Empty in one step, all other cells are untouched. Written from the
words of the spec, to be compared with the sequential
`clearColsN / clearRowsN` loops embedded from the source. -/
def specResolveClear (b : Board) (fullR fullC : List Nat) : Board :=
  (List.range 10).map fun r =>
    (List.range 10).map fun c =>
      if fullR.contains r || fullC.contains c then none else getCell b r c

-- ### Concrete fixtures

/-- A Playing two-seat Othello room on the standard initial board. -/
def initialOthelloRoom : Room :=
  { type := RoomType.OTHELLO, board := initialOthelloBoard, turn := "black",
    players := [⟨"sA", "A", "black"⟩, ⟨"sB", "B", "white"⟩],
    status := Status.PLAYING, hands := none, scores := none }

/-- A fixed random stream for concrete evaluations. -/
def rngZero : Nat → Nat := fun _ => 0

/-- Status resulting from an `ok` outcome. -/
def resultStatus : HandlerResult → Option Status
  | .ok room _ => some room.status
  | _ => none

/-- Turn owner resulting from an `ok` outcome. -/
def resultTurn : HandlerResult → Option String
  | .ok room _ => some room.turn
  | _ => none

/-- Events resulting from an `ok` outcome. -/
def resultEvents : HandlerResult → List Event
  | .ok _ events => events
  | _ => []

def shapeI5 : ShapeDef := ⟨"I5", [[1, 1, 1, 1, 1]], "yellow", 3, "hard"⟩

def shapeI2 : ShapeDef := ⟨"I2", [[1, 1]], "green", 1, "easy"⟩

def shapeSQR3 : ShapeDef :=
  ⟨"SQR3", [[1, 1, 1], [1, 1, 1], [1, 1, 1]], "purple", 3, "easy"⟩

/-- A 10 by 10 puzzle board whose top row is filled in its right half. -/
def c2Board : Board :=
  (List.replicate 5 (none : Cell) ++ List.replicate 5 (some "white")) ::
    List.replicate 9 (List.replicate 10 (none : Cell))

/-- The hands of `c2Room`. -/
def c2Hands : Hands :=
  { black := [some shapeI5, none, none], white := [some shapeI2, none, none] }

/-- A Playing puzzle room where black holds an I5 that completes row 0. -/
def c2Room : Room :=
  { type := RoomType.PUZZLE, board := c2Board, turn := "black",
    players := [⟨"sA", "A", "black"⟩, ⟨"sB", "B", "white"⟩],
    status := Status.PLAYING,
    hands := some c2Hands,
    scores := some ⟨0, 0⟩ }

/-- A 10 by 10 board that is full except for the two cells (0,0) (0,1) and
the diagonal cells (r,r) for r = 1..9. -/
def c5Board : Board :=
  ([none, none] ++ List.replicate 8 (some "w")) ::
    (List.range 9).map fun k => (List.replicate 10 (some "w")).set (k + 1) none

/-- The hands of `c5Room`. -/
def c5Hands : Hands :=
  { black := [some shapeI2, none, none], white := [some shapeSQR3, none, none] }

/-- A Playing puzzle room where black can drop an I2 into (0,0)-(0,1),
clearing row 0 and column 0, after which the 3 by 3 square held by white
fits nowhere. -/
def c5Room : Room :=
  { type := RoomType.PUZZLE, board := c5Board, turn := "black",
    players := [⟨"sA", "A", "black"⟩, ⟨"sB", "B", "white"⟩],
    status := Status.PLAYING,
    hands := some c5Hands,
    scores := some ⟨40, 700⟩ }

/-- An 8 by 8 solo grid: row 0 full, one stray stone at (5,5). -/
def soloGrid : Board :=
  [List.replicate 8 (some "x"),
   List.replicate 8 (none : Cell), List.replicate 8 (none : Cell),
   List.replicate 8 (none : Cell), List.replicate 8 (none : Cell),
   (List.replicate 8 (none : Cell)).set 5 (some "x"),
   List.replicate 8 (none : Cell), List.replicate 8 (none : Cell)]

/-- A Finished Othello room with a single remaining seat (black left after
the game ended). -/
def finishedOthelloRoom : Room :=
  { type := RoomType.OTHELLO, board := initialOthelloBoard, turn := "white",
    players := [⟨"sB", "B", "white"⟩], status := Status.FINISHED,
    hands := none, scores := none }

/-- An Aborted puzzle room with a single remaining seat. -/
def abortedPuzzleRoom : Room :=
  { type := RoomType.PUZZLE, board := c2Board, turn := "black",
    players := [⟨"sA", "A", "black"⟩], status := Status.ABORTED,
    hands := some c2Hands, scores := some ⟨3, 4⟩ }

-- Sanity checks of the embedding on concrete inputs.

example : hasValidMoves initialOthelloBoard "black" = true := by decide
example : hasValidMoves initialOthelloBoard "white" = true := by decide
example : isLegalMoveCell initialOthelloBoard "black" 2 3 = true := by decide
example : isLegalMoveCell initialOthelloBoard "black" 0 0 = false := by decide
example : countScore initialOthelloBoard = { black := 2, white := 2 } := by decide

-- A legal opening move flips (3,3) and passes the turn to white.
example :
    resultBoard (make_move "sA" (some initialOthelloRoom) 2 3) =
      some (setCellI (setCellI initialOthelloBoard 2 3 (some "black")) 3 3 (some "black")) := by
  decide

-- Sanity: the networked server awards 5 + 1*100 = 105 for the I5 move.
example :
    resultScores (puzzle_move "sA" rngZero (some c2Room) 0 0 0) =
      some { black := 105, white := 0 } := by decide

-- Sanity: the c2 move continues the game, handing the turn to white.
example :
    resultStatus (puzzle_move "sA" rngZero (some c2Room) 0 0 0) =
      some Status.PLAYING := by decide

-- Sanity: the c5 move strands white and ends the game with black winning
-- despite white leading 700 to 40+score on points.
example :
    resultStatus (puzzle_move "sA" rngZero (some c5Room) 0 0 0) =
      some Status.FINISHED := by decide

-- Sanity: the othello handler throws on an out-of-range row.
example : make_move "sA" (some initialOthelloRoom) 8 0 = HandlerResult.crash := by decide

-- ## Board access infrastructure

lemma getCell_setCell_ne (b : Board) (r c : Nat) (v : Cell) (r' c' : Nat)
    (h : ¬(r = r' ∧ c = c')) :
    getCell (setCell b r c v) r' c' = getCell b r' c' := by
  simp only [getCell, setCell, List.getD_eq_getElem?_getD, List.getElem?_set]
  by_cases hr : r = r'
  · subst hr
    have hc : c ≠ c' := fun hcc => h ⟨rfl, hcc⟩
    by_cases hlen : r < b.length
    · simp [hlen, hc]
    · simp [hlen, List.getElem?_eq_none (Nat.le_of_not_lt hlen)]
  · simp [hr]

lemma getCell_setCell_eq (b : Board) (r c : Nat) (v : Cell)
    (hr : r < b.length) (hc : c < (b.getD r []).length) :
    getCell (setCell b r c v) r c = v := by
  rw [List.getD_eq_getElem?_getD] at hc
  have hc2 : c < b[r].length := by
    simpa [List.getElem?_eq_getElem hr] using hc
  simp only [getCell, setCell, List.getD_eq_getElem?_getD, List.getElem?_set]
  simp [hr, hc2, List.getElem?_set]

lemma dims_setCell {n : Nat} {b : Board} (hd : Dims n b) (r c : Nat) (v : Cell) :
    Dims n (setCell b r c v) := by
  obtain ⟨hlen, hrows⟩ := hd
  by_cases hr : r < b.length
  · refine ⟨by simpa [setCell] using hlen, fun row hmem => ?_⟩
    rcases List.mem_or_eq_of_mem_set hmem with hmem' | heq
    · exact hrows row hmem'
    · subst heq
      rw [List.length_set, List.getD_eq_getElem b [] hr]
      exact hrows _ (List.getElem_mem hr)
  · unfold setCell
    rw [List.set_eq_of_length_le (by omega)]
    exact ⟨hlen, hrows⟩

lemma dims_foldl {n : Nat} {α : Type} (g : Board → α → Board)
    (hg : ∀ b a, Dims n b → Dims n (g b a)) (l : List α) (b : Board)
    (hd : Dims n b) : Dims n (l.foldl g b) := by
  induction l generalizing b with
  | nil => exact hd
  | cons a l ih => exact ih _ (hg _ _ hd)

lemma foldl_preserve {β : Type} {α : Type} (P : β → Prop) (g : β → α → β)
    (hg : ∀ b a, P b → P (g b a)) (l : List α) (b : β) (hb : P b) :
    P (l.foldl g b) := by
  induction l generalizing b with
  | nil => exact hb
  | cons a l ih => exact ih _ (hg _ _ hb)

lemma rowLen_of_dims {n : Nat} {b : Board} (hd : Dims n b) {r : Nat} (hr : r < n) :
    (b.getD r []).length = n := by
  have hlen : r < b.length := by rw [hd.1]; exact hr
  rw [List.getD_eq_getElem b [] hlen]
  exact hd.2 _ (List.getElem_mem hlen)

lemma getCell_rowClearFold {n : Nat} (cs : List Nat) (b : Board) (r0 : Nat)
    (hcs : ∀ x ∈ cs, x < n) (hd : Dims n b) (hr0 : r0 < n) (r c : Nat) :
    getCell (cs.foldl (fun acc2 c2 => setCell acc2 r0 c2 none) b) r c =
      if r = r0 ∧ c ∈ cs then none else getCell b r c := by
  revert hcs hd
  induction cs generalizing b with
  | nil => intro hcs hd; simp
  | cons c0 cs ih =>
    intro hcs hd
    rw [List.foldl_cons,
      ih _ (fun x hx => hcs x (List.mem_cons_of_mem _ hx)) (dims_setCell hd r0 c0 none)]
    by_cases h1 : r = r0 ∧ c ∈ cs
    · rw [if_pos h1, if_pos ⟨h1.1, List.mem_cons_of_mem _ h1.2⟩]
    · rw [if_neg h1]
      by_cases h2 : r = r0 ∧ c = c0
      · obtain ⟨hrr, hcc⟩ := h2
        subst hrr; subst hcc
        rw [getCell_setCell_eq _ _ _ _ (by rw [hd.1]; exact hr0)
          (by rw [rowLen_of_dims hd hr0]; exact hcs c (List.mem_cons_self _ _))]
        rw [if_pos ⟨rfl, List.mem_cons_self _ _⟩]
      · rw [getCell_setCell_ne _ _ _ _ _ _ (fun hx => h2 ⟨hx.1.symm, hx.2.symm⟩)]
        rw [if_neg (fun hx => by
          rcases List.mem_cons.mp hx.2 with hcc | hcs2
          · exact h2 ⟨hx.1, hcc⟩
          · exact h1 ⟨hx.1, hcs2⟩)]

lemma getCell_colClearFold {n : Nat} (rs : List Nat) (b : Board) (c0 : Nat)
    (hrs : ∀ x ∈ rs, x < n) (hd : Dims n b) (hc0 : c0 < n) (r c : Nat) :
    getCell (rs.foldl (fun acc2 r2 => setCell acc2 r2 c0 none) b) r c =
      if r ∈ rs ∧ c = c0 then none else getCell b r c := by
  revert hrs hd
  induction rs generalizing b with
  | nil => intro hrs hd; simp
  | cons r0 rs ih =>
    intro hrs hd
    rw [List.foldl_cons,
      ih _ (fun x hx => hrs x (List.mem_cons_of_mem _ hx)) (dims_setCell hd r0 c0 none)]
    by_cases h1 : r ∈ rs ∧ c = c0
    · rw [if_pos h1, if_pos ⟨List.mem_cons_of_mem _ h1.1, h1.2⟩]
    · rw [if_neg h1]
      by_cases h2 : r = r0 ∧ c = c0
      · obtain ⟨hrr, hcc⟩ := h2
        subst hrr; subst hcc
        rw [getCell_setCell_eq _ _ _ _
          (by rw [hd.1]; exact hrs r (List.mem_cons_self _ _))
          (by rw [rowLen_of_dims hd (hrs r (List.mem_cons_self _ _))]; exact hc0)]
        rw [if_pos ⟨List.mem_cons_self _ _, rfl⟩]
      · rw [getCell_setCell_ne _ _ _ _ _ _ (fun hx => h2 ⟨hx.1.symm, hx.2.symm⟩)]
        rw [if_neg (fun hx => by
          rcases List.mem_cons.mp hx.1 with hrr | hrs2
          · exact h2 ⟨hrr, hx.2⟩
          · exact h1 ⟨hrs2, hx.2⟩)]

lemma dims_clearRowsN {n : Nat} {b : Board} (hd : Dims n b) (rows : List Nat) :
    Dims n (clearRowsN n b rows) :=
  dims_foldl _
    (fun _ r hd' => dims_foldl _ (fun _ c hd'' => dims_setCell hd'' r c none) _ _ hd')
    rows b hd

lemma dims_clearColsN {n : Nat} {b : Board} (hd : Dims n b) (cols : List Nat) :
    Dims n (clearColsN n b cols) :=
  dims_foldl _
    (fun _ c hd' => dims_foldl _ (fun _ r hd'' => dims_setCell hd'' r c none) _ _ hd')
    cols b hd

lemma getCell_clearRowsN {n : Nat} (rows : List Nat) {b : Board}
    (hrows : ∀ x ∈ rows, x < n) (hd : Dims n b) (r c : Nat) (hc : c < n) :
    getCell (clearRowsN n b rows) r c = if r ∈ rows then none else getCell b r c := by
  revert hrows hd
  unfold clearRowsN
  induction rows generalizing b with
  | nil => intro hrows hd; simp
  | cons r0 rest ih =>
    intro hrows hd
    rw [List.foldl_cons,
      ih (fun x hx => hrows x (List.mem_cons_of_mem _ hx))
        (dims_foldl _ (fun _ c2 hd'' => dims_setCell hd'' r0 c2 none) _ _ hd)]
    rw [getCell_rowClearFold (List.range n) b r0
      (fun x hx => List.mem_range.mp hx) hd (hrows r0 (List.mem_cons_self _ _)) r c]
    by_cases h1 : r ∈ rest
    · rw [if_pos h1, if_pos (List.mem_cons_of_mem _ h1)]
    · rw [if_neg h1]
      by_cases h2 : r = r0
      · rw [if_pos ⟨h2, List.mem_range.mpr hc⟩, if_pos (h2 ▸ List.mem_cons_self _ _)]
      · rw [if_neg (fun hx => h2 hx.1), if_neg (fun hx => by
          rcases List.mem_cons.mp hx with hrr | hrs
          · exact h2 hrr
          · exact h1 hrs)]

lemma getCell_clearColsN {n : Nat} (cols : List Nat) {b : Board}
    (hcols : ∀ x ∈ cols, x < n) (hd : Dims n b) (r c : Nat) (hr : r < n) :
    getCell (clearColsN n b cols) r c = if c ∈ cols then none else getCell b r c := by
  revert hcols hd
  unfold clearColsN
  induction cols generalizing b with
  | nil => intro hcols hd; simp
  | cons c0 rest ih =>
    intro hcols hd
    rw [List.foldl_cons,
      ih (fun x hx => hcols x (List.mem_cons_of_mem _ hx))
        (dims_foldl _ (fun _ r2 hd'' => dims_setCell hd'' r2 c0 none) _ _ hd)]
    rw [getCell_colClearFold (List.range n) b c0
      (fun x hx => List.mem_range.mp hx) hd (hcols c0 (List.mem_cons_self _ _)) r c]
    by_cases h1 : c ∈ rest
    · rw [if_pos h1, if_pos (List.mem_cons_of_mem _ h1)]
    · rw [if_neg h1]
      by_cases h2 : c = c0
      · rw [if_pos ⟨List.mem_range.mpr hr, h2⟩, if_pos (h2 ▸ List.mem_cons_self _ _)]
      · rw [if_neg (fun hx => h2 hx.2), if_neg (fun hx => by
          rcases List.mem_cons.mp hx with hcc | hcs
          · exact h2 hcc
          · exact h1 hcs)]

/-- Pointwise description of the sequential clearing loops of the source:
a cell is reset exactly when its row or its column is being cleared. -/
lemma getCell_clearBoth {b : Board} (hd : Dims 10 b) (R C : List Nat)
    (hR : ∀ x ∈ R, x < 10) (hC : ∀ x ∈ C, x < 10) (r c : Nat)
    (hr : r < 10) (hc : c < 10) :
    getCell (clearColsN 10 (clearRowsN 10 b R) C) r c =
      if r ∈ R ∨ c ∈ C then none else getCell b r c := by
  rw [getCell_clearColsN C hC (dims_clearRowsN hd R) r c hr,
    getCell_clearRowsN R hR hd r c hc]
  by_cases h1 : c ∈ C
  · simp [h1]
  · by_cases h2 : r ∈ R <;> simp [h1, h2]

lemma board_eq_of_getCell {n : Nat} {b1 b2 : Board} (h1 : Dims n b1) (h2 : Dims n b2)
    (h : ∀ r < n, ∀ c < n, getCell b1 r c = getCell b2 r c) : b1 = b2 := by
  apply List.ext_getElem (by rw [h1.1, h2.1])
  intro r hr1 hr2
  apply List.ext_getElem
  · rw [h1.2 _ (List.getElem_mem hr1), h2.2 _ (List.getElem_mem hr2)]
  · intro c hc1 hc2
    have hr : r < n := by rw [← h1.1]; exact hr1
    have hc : c < n := by
      rw [← h1.2 _ (List.getElem_mem hr1)]
      exact hc1
    have hx := h r hr c hc
    have e1 : getCell b1 r c = b1[r][c] := by
      rw [getCell, List.getD_eq_getElem b1 [] hr1, List.getD_eq_getElem _ none hc1]
    have e2 : getCell b2 r c = b2[r][c] := by
      rw [getCell, List.getD_eq_getElem b2 [] hr2, List.getD_eq_getElem _ none hc2]
    rw [e1, e2] at hx
    exact hx

lemma dims_specResolveClear (b : Board) (R C : List Nat) :
    Dims 10 (specResolveClear b R C) := by
  constructor
  · simp [specResolveClear]
  · intro row hrow
    simp only [specResolveClear, List.mem_map, List.mem_range] at hrow
    obtain ⟨r, _, rfl⟩ := hrow
    simp

lemma getCell_specResolveClear (b : Board) (R C : List Nat) {r c : Nat}
    (hr : r < 10) (hc : c < 10) :
    getCell (specResolveClear b R C) r c =
      if r ∈ R ∨ c ∈ C then none else getCell b r c := by
  have hlen : r < (specResolveClear b R C).length := by
    simp only [specResolveClear, List.length_map, List.length_range]
    exact hr
  rw [getCell, List.getD_eq_getElem _ [] hlen]
  have hre : (specResolveClear b R C)[r] =
      (List.range 10).map (fun c2 =>
        if R.contains r || C.contains c2 then none else getCell b r c2) := by
    simp only [specResolveClear, List.getElem_map, List.getElem_range]
  rw [hre]
  have hlen2 : c < ((List.range 10).map (fun c2 =>
      if R.contains r || C.contains c2 then none else getCell b r c2)).length := by
    simp only [List.length_map, List.length_range]
    exact hc
  rw [List.getD_eq_getElem _ none hlen2]
  simp only [List.getElem_map, List.getElem_range]
  by_cases h1 : r ∈ R <;> by_cases h2 : c ∈ C <;> simp [h1, h2]

/-- Membership in `fullRowsN` characterized cell by cell. -/
lemma mem_fullRowsN {n : Nat} {b : Board} (hd : Dims n b) {r : Nat} :
    r ∈ fullRowsN n b ↔ r < n ∧ ∀ c < n, getCell b r c ≠ none := by
  simp only [fullRowsN, List.mem_filter, List.mem_range]
  constructor
  · rintro ⟨hr, hall⟩
    refine ⟨hr, fun c hc => ?_⟩
    rw [List.all_eq_true] at hall
    have hc' : c < (b.getD r []).length := by rw [rowLen_of_dims hd hr]; exact hc
    have := hall _ (List.getElem_mem hc')
    rw [getCell, List.getD_eq_getElem _ none hc']
    simpa using this
  · rintro ⟨hr, h⟩
    refine ⟨hr, ?_⟩
    rw [List.all_eq_true]
    intro x hx
    obtain ⟨i, hi, rfl⟩ := List.mem_iff_getElem.mp hx
    have hc : i < n := by rw [← rowLen_of_dims hd hr]; exact hi
    have := h i hc
    rw [getCell, List.getD_eq_getElem _ none hi] at this
    simpa using this

/-- Membership in `fullColsN` characterized cell by cell. -/
lemma mem_fullColsN {n : Nat} {b : Board} {c : Nat} :
    c ∈ fullColsN n b ↔ c < n ∧ ∀ r < n, getCell b r c ≠ none := by
  simp only [fullColsN, List.mem_filter, List.mem_range, List.all_eq_true]
  constructor
  · rintro ⟨hc, hall⟩
    exact ⟨hc, fun r hr => by simpa using hall r hr⟩
  · rintro ⟨hc, h⟩
    exact ⟨hc, fun r hr => by simpa using h r hr⟩

lemma mem_fullRowsN_lt {n : Nat} {b : Board} {r : Nat} (h : r ∈ fullRowsN n b) :
    r < n := by
  simp only [fullRowsN, List.mem_filter, List.mem_range] at h
  exact h.1

lemma mem_fullColsN_lt {n : Nat} {b : Board} {c : Nat} (h : c ∈ fullColsN n b) :
    c < n := by
  simp only [fullColsN, List.mem_filter, List.mem_range] at h
  exact h.1

/-- The sequential row/column clearing of the source coincides with the
atomic union clearing worded by the spec. -/
lemma clearBoth_eq_spec {b1 : Board} (hd : Dims 10 b1) :
    clearColsN 10 (clearRowsN 10 b1 (fullRowsN 10 b1)) (fullColsN 10 b1) =
      specResolveClear b1 (fullRowsN 10 b1) (fullColsN 10 b1) := by
  apply board_eq_of_getCell
    (dims_clearColsN (dims_clearRowsN hd _) _) (dims_specResolveClear _ _ _)
  intro r hr c hc
  rw [getCell_clearBoth hd _ _ (fun x hx => mem_fullRowsN_lt hx)
    (fun x hx => mem_fullColsN_lt hx) r c hr hc]
  rw [getCell_specResolveClear _ _ _ hr hc]

/-- After clearing every full row and column, no row of the result is full. -/
lemma no_fullRows_after_clear {b1 : Board} (hd : Dims 10 b1) :
    fullRowsN 10 (clearColsN 10 (clearRowsN 10 b1 (fullRowsN 10 b1))
      (fullColsN 10 b1)) = [] := by
  set b2 := clearColsN 10 (clearRowsN 10 b1 (fullRowsN 10 b1)) (fullColsN 10 b1) with hb2
  have hd2 : Dims 10 b2 := dims_clearColsN (dims_clearRowsN hd _) _
  have hpt : ∀ r < 10, ∀ c < 10, getCell b2 r c =
      if r ∈ fullRowsN 10 b1 ∨ c ∈ fullColsN 10 b1 then none else getCell b1 r c := by
    intro r hr c hc
    rw [hb2, getCell_clearBoth hd _ _ (fun x hx => mem_fullRowsN_lt hx)
      (fun x hx => mem_fullColsN_lt hx) r c hr hc]
  rw [List.eq_nil_iff_forall_not_mem]
  intro r hmem
  have hr : r < 10 := mem_fullRowsN_lt hmem
  have hfull := (mem_fullRowsN hd2).mp hmem
  by_cases hR : r ∈ fullRowsN 10 b1
  · have := hfull.2 0 (by omega)
    rw [hpt r hr 0 (by omega), if_pos (Or.inl hR)] at this
    exact this rfl
  · have hnot := (mem_fullRowsN hd).not.mp hR
    push_neg at hnot
    obtain ⟨c, hc, hcell⟩ := hnot hr
    have := hfull.2 c hc
    rw [hpt r hr c hc] at this
    by_cases hC : c ∈ fullColsN 10 b1
    · rw [if_pos (Or.inr hC)] at this
      exact this rfl
    · rw [if_neg (by tauto)] at this
      exact this hcell

/-- After clearing every full row and column, no column of the result is
full. -/
lemma no_fullCols_after_clear {b1 : Board} (hd : Dims 10 b1) :
    fullColsN 10 (clearColsN 10 (clearRowsN 10 b1 (fullRowsN 10 b1))
      (fullColsN 10 b1)) = [] := by
  set b2 := clearColsN 10 (clearRowsN 10 b1 (fullRowsN 10 b1)) (fullColsN 10 b1) with hb2
  have hpt : ∀ r < 10, ∀ c < 10, getCell b2 r c =
      if r ∈ fullRowsN 10 b1 ∨ c ∈ fullColsN 10 b1 then none else getCell b1 r c := by
    intro r hr c hc
    rw [hb2, getCell_clearBoth hd _ _ (fun x hx => mem_fullRowsN_lt hx)
      (fun x hx => mem_fullColsN_lt hx) r c hr hc]
  rw [List.eq_nil_iff_forall_not_mem]
  intro c hmem
  have hc : c < 10 := mem_fullColsN_lt hmem
  have hfull := mem_fullColsN.mp hmem
  by_cases hC : c ∈ fullColsN 10 b1
  · have := hfull.2 0 (by omega)
    rw [hpt 0 (by omega) c hc, if_pos (Or.inr hC)] at this
    exact this rfl
  · have hnot := mem_fullColsN.not.mp hC
    push_neg at hnot
    obtain ⟨r, hr, hcell⟩ := hnot hc
    have := hfull.2 r hr
    rw [hpt r hr c hc] at this
    by_cases hR : r ∈ fullRowsN 10 b1
    · rw [if_pos (Or.inl hR)] at this
      exact this rfl
    · rw [if_neg (by tauto)] at this
      exact this hcell

/-- With nothing to clear, the spec clearing is the identity. -/
lemma specResolveClear_nil {b : Board} (hd : Dims 10 b) :
    specResolveClear b [] [] = b := by
  apply board_eq_of_getCell (dims_specResolveClear _ _ _) hd
  intro r hr c hc
  rw [getCell_specResolveClear _ _ _ hr hc]
  simp

-- ## Handler validation lemmas

/-- A `make_move` event on a Playing Othello room whose target cell reads as
empty reaches the validated tail. -/
lemma make_move_validated (s : String) (room : Room) (row col : Int)
    (rowList : List Cell)
    (hst : room.status = Status.PLAYING) (hty : room.type = RoomType.OTHELLO)
    (hrow : rowAtI room.board row = some rowList)
    (hcell : cellAtI rowList col = some none) :
    make_move s (some room) row col = othello_apply room row col := by
  simp [make_move, hst, hty, hrow, hcell]

/-- A `puzzle_move` event on a Playing puzzle room with an occupied hand
slot and a placeable shape reaches the validated tail. -/
lemma puzzle_move_validated (s : String) (rng : Nat → Nat) (room : Room)
    (hands : Hands) (scores : Scores) (shape : ShapeDef) (shapeIndex row col : Int)
    (hst : room.status = Status.PLAYING) (hty : room.type = RoomType.PUZZLE)
    (hh : room.hands = some hands) (hsc : room.scores = some scores)
    (hcolor : room.turn = "black" ∨ room.turn = "white")
    (hhand : handAt (handOf hands room.turn) shapeIndex = some shape)
    (hcp : canPlace room.board shape.matrix row col = true) :
    puzzle_move s rng (some room) shapeIndex row col =
      puzzle_apply rng room hands scores shape shapeIndex row col := by
  rcases hcolor with h | h <;>
    · rw [h] at hhand
      simp [puzzle_move, hst, hty, hh, hsc, h, hhand, hcp]

/-- `puzzle_apply` when the seat now to move is stranded: the game
finishes and the mover is announced winner. -/
lemma puzzle_apply_stalemate (rng : Nat → Nat) (room : Room) (hands : Hands)
    (scores : Scores) (shape : ShapeDef) (shapeIndex row col : Int)
    (h : hasAnyValidMove (boardAfterClear room shape row col)
      (handOf (handsAfter rng room hands shapeIndex) (opponentOf room.turn)) = false) :
    puzzle_apply rng room hands scores shape shapeIndex row col =
      HandlerResult.ok
        { room with
            board := boardAfterClear room shape row col
            turn := opponentOf room.turn
            hands := some (handsAfter rng room hands shapeIndex)
            scores := some (scoresAfter room scores shape row col)
            status := Status.FINISHED }
        [Event.puzzle_game_over room.turn "no_moves"
          (boardAfterClear room shape row col)
          (scoresAfter room scores shape row col)] := by
  simp only [boardAfterClear, handsAfter, handAfter, scoresAfter, moveScoreOf,
    totalLinesOf, placedBoard, placedCount] at h ⊢
  simp only [puzzle_apply]
  rw [h]
  rfl

/-- `puzzle_apply` when the seat now to move still has a placement: the
game continues with the turn switched. -/
lemma puzzle_apply_continue (rng : Nat → Nat) (room : Room) (hands : Hands)
    (scores : Scores) (shape : ShapeDef) (shapeIndex row col : Int)
    (h : hasAnyValidMove (boardAfterClear room shape row col)
      (handOf (handsAfter rng room hands shapeIndex) (opponentOf room.turn)) = true) :
    puzzle_apply rng room hands scores shape shapeIndex row col =
      HandlerResult.ok
        { room with
            board := boardAfterClear room shape row col
            turn := opponentOf room.turn
            hands := some (handsAfter rng room hands shapeIndex)
            scores := some (scoresAfter room scores shape row col) }
        [Event.update_puzzle_state (boardAfterClear room shape row col)
          (opponentOf room.turn) (handsAfter rng room hands shapeIndex)
          (scoresAfter room scores shape row col) row col shape.id] := by
  simp only [boardAfterClear, handsAfter, handAfter, scoresAfter, moveScoreOf,
    totalLinesOf, placedBoard, placedCount] at h ⊢
  simp only [puzzle_apply]
  rw [h]
  rfl

/-- Updating the mover entry of the hand table leaves the seat about to
move with its original hand. -/
lemma handOf_handsAfter_opponent (rng : Nat → Nat) (room : Room) (hands : Hands)
    (shapeIndex : Int) (hcolor : room.turn = "black" ∨ room.turn = "white") :
    handOf (handsAfter rng room hands shapeIndex) (opponentOf room.turn) =
      handOf hands (opponentOf room.turn) := by
  rcases hcolor with h | h <;> simp [handsAfter, handOf, opponentOf, h]

/-- The mover entry of the updated hand table is `handAfter`. -/
lemma handOf_handsAfter_self (rng : Nat → Nat) (room : Room) (hands : Hands)
    (shapeIndex : Int) (hcolor : room.turn = "black" ∨ room.turn = "white") :
    handOf (handsAfter rng room hands shapeIndex) room.turn =
      handAfter rng room hands shapeIndex := by
  rcases hcolor with h | h <;> simp [handsAfter, handOf, h]

/-- The mover score after the move is the old score plus the move score,
and the waiting score is untouched. -/
lemma scoreOf_scoresAfter (room : Room) (scores : Scores) (shape : ShapeDef)
    (row col : Int) (hcolor : room.turn = "black" ∨ room.turn = "white") :
    scoreOf (scoresAfter room scores shape row col) room.turn =
      scoreOf scores room.turn + moveScoreOf room shape row col ∧
    scoreOf (scoresAfter room scores shape row col) (opponentOf room.turn) =
      scoreOf scores (opponentOf room.turn) := by
  rcases hcolor with h | h <;> simp [scoresAfter, scoreOf, opponentOf, h]

/-- The placement loop preserves the board dimensions. -/
lemma dims_placeShape {n : Nat} (b : Board) (matrix : List (List Nat))
    (row col : Int) (color : String) (hd : Dims n b) :
    Dims n (placeShape b matrix row col color).1 := by
  unfold placeShape
  apply foldl_preserve (fun p : Board × Nat => Dims n p.1)
  · intro p i hp
    apply foldl_preserve (fun q : Board × Nat => Dims n q.1)
    · intro q j hq
      dsimp only
      split
      · exact dims_setCell hq _ _ _
      · exact hq
    · exact hp
  · exact hd

/-- The cleared board realizes the atomic union clearing of the spec and
retains no full row and no full column. -/
lemma boardAfterClear_spec (room : Room) (shape : ShapeDef) (row col : Int)
    (hd1 : Dims 10 (placedBoard room shape row col)) :
    boardAfterClear room shape row col =
      specResolveClear (placedBoard room shape row col)
        (fullRowsN 10 (placedBoard room shape row col))
        (fullColsN 10 (placedBoard room shape row col)) ∧
    fullRowsN 10 (boardAfterClear room shape row col) = [] ∧
    fullColsN 10 (boardAfterClear room shape row col) = [] := by
  unfold boardAfterClear totalLinesOf
  by_cases h0 : (fullRowsN 10 (placedBoard room shape row col)).length +
      (fullColsN 10 (placedBoard room shape row col)).length > 0
  · rw [if_pos h0]
    exact ⟨clearBoth_eq_spec hd1, no_fullRows_after_clear hd1,
      no_fullCols_after_clear hd1⟩
  · rw [if_neg h0]
    have hR : fullRowsN 10 (placedBoard room shape row col) = [] :=
      List.length_eq_zero.mp (by omega)
    have hC : fullColsN 10 (placedBoard room shape row col) = [] :=
      List.length_eq_zero.mp (by omega)
    refine ⟨?_, hR, hC⟩
    rw [hR, hC, specResolveClear_nil hd1]

-- ## Claim C3: the Othello turn resolution cascade

/-- C3: after every applied Othello move, exactly this cascade holds: if the
opponent has a legal move the turn passes to the opponent; otherwise, if the
mover still has a legal move, the turn stays with the mover and a pass
notice is emitted; otherwise the room becomes Finished with the winner being
the color holding strictly more stones, or a draw on an exact tie. -/
theorem othello_turn_cascade (s : String) (room : Room) (row col : Int)
    (rowList : List Cell)
    (hst : room.status = Status.PLAYING) (hty : room.type = RoomType.OTHELLO)
    (hrow : rowAtI room.board row = some rowList)
    (hcell : cellAtI rowList col = some none) :
    (hasValidMoves (applyMoveBoard room.board room.turn row col)
        (opponentOf room.turn) = true →
      make_move s (some room) row col =
        HandlerResult.ok
          { room with board := applyMoveBoard room.board room.turn row col,
                      turn := opponentOf room.turn }
          [Event.update_board (applyMoveBoard room.board room.turn row col)
            (opponentOf room.turn)]) ∧
    (hasValidMoves (applyMoveBoard room.board room.turn row col)
        (opponentOf room.turn) = false →
      hasValidMoves (applyMoveBoard room.board room.turn row col) room.turn = true →
      make_move s (some room) row col =
        HandlerResult.ok
          { room with board := applyMoveBoard room.board room.turn row col }
          [Event.update_board (applyMoveBoard room.board room.turn row col) room.turn,
           Event.notice ((opponentOf room.turn).toUpper ++ " has no moves! PASS.")]) ∧
    (hasValidMoves (applyMoveBoard room.board room.turn row col)
        (opponentOf room.turn) = false →
      hasValidMoves (applyMoveBoard room.board room.turn row col) room.turn = false →
      ∃ w,
        make_move s (some room) row col =
          HandlerResult.ok
            { room with board := applyMoveBoard room.board room.turn row col,
                        status := Status.FINISHED }
            [Event.game_over (applyMoveBoard room.board room.turn row col) w
              (countScore (applyMoveBoard room.board room.turn row col)).black
              (countScore (applyMoveBoard room.board room.turn row col)).white] ∧
        ((countScore (applyMoveBoard room.board room.turn row col)).black >
            (countScore (applyMoveBoard room.board room.turn row col)).white →
          w = "black") ∧
        ((countScore (applyMoveBoard room.board room.turn row col)).white >
            (countScore (applyMoveBoard room.board room.turn row col)).black →
          w = "white") ∧
        ((countScore (applyMoveBoard room.board room.turn row col)).black =
            (countScore (applyMoveBoard room.board room.turn row col)).white →
          w = "draw")) := by
  rw [make_move_validated s room row col rowList hst hty hrow hcell]
  refine ⟨fun h1 => ?_, fun h1 h2 => ?_, fun h1 h2 => ?_⟩
  · simp [othello_apply, h1]
  · simp [othello_apply, h1, h2]
  · refine ⟨if (countScore (applyMoveBoard room.board room.turn row col)).white >
        (countScore (applyMoveBoard room.board room.turn row col)).black then "white"
      else if (countScore (applyMoveBoard room.board room.turn row col)).black >
        (countScore (applyMoveBoard room.board room.turn row col)).white then "black"
      else "draw", ?_, ?_, ?_, ?_⟩
    · simp [othello_apply, h1, h2]
    · intro hgt
      rw [if_neg (by omega), if_pos hgt]
    · intro hgt
      rw [if_pos hgt]
    · intro heq
      rw [if_neg (by omega), if_neg (by omega)]

/-- Witness for C3: black opens with the legal move (2,3) on the standard
initial room; white can answer, so the turn passes to white. -/
theorem othello_turn_cascade_witness :
    make_move "sA" (some initialOthelloRoom) 2 3 =
      HandlerResult.ok
        { initialOthelloRoom with
            board := applyMoveBoard initialOthelloRoom.board initialOthelloRoom.turn 2 3,
            turn := opponentOf initialOthelloRoom.turn }
        [Event.update_board
          (applyMoveBoard initialOthelloRoom.board initialOthelloRoom.turn 2 3)
          (opponentOf initialOthelloRoom.turn)] :=
  (othello_turn_cascade "sA" initialOthelloRoom 2 3
    (List.replicate 8 (none : Cell)) rfl rfl (by decide) (by decide)).1 (by decide)

-- ## Claim C4: handler totality (code bug: out-of-range row throws)

/-- C4 (code bug evidence): on a Playing Othello room, a `make_move` with
row 8 (or a negative row) reads `board[row]` as `undefined` and the
subsequent `[col]` access throws an uncaught TypeError, while the puzzle
handler really does degrade to a no-op on an out-of-range hand slot. -/
theorem othello_move_out_of_range_crash :
    make_move "sA" (some initialOthelloRoom) 8 0 = HandlerResult.crash ∧
    make_move "sA" (some initialOthelloRoom) (-1) 0 = HandlerResult.crash ∧
    puzzle_move "sA" rngZero (some c2Room) 99 0 0 = HandlerResult.noop ∧
    puzzle_move "sA" rngZero (some c2Room) 0 50 50 = HandlerResult.noop := by
  refine ⟨by decide, by decide, by decide, by decide⟩

-- ## Claim C1: illegal-move handling in the Othello handler

/-- A cell that reads as `some color` keeps reading so after any write of
`some color` elsewhere or onto it. -/
lemma getCell_setCell_keep {b : Board} {r c x y : Nat} {color : String}
    (hinv : getCell b r c = some color) :
    getCell (setCell b x y (some color)) r c = some color := by
  by_cases hp : x = r ∧ y = c
  · obtain ⟨rfl, rfl⟩ := hp
    have hb : x < b.length := by
      by_contra hx
      have hrow0 : b.getD x [] = [] := by
        rw [List.getD_eq_getElem?_getD, List.getElem?_eq_none (by omega)]
        rfl
      rw [getCell, hrow0] at hinv
      simp at hinv
    have hc2 : y < (b.getD x []).length := by
      by_contra hy
      rw [getCell, List.getD_eq_getElem?_getD,
        List.getElem?_eq_none (by omega)] at hinv
      simp at hinv
    rw [getCell_setCell_eq _ _ _ _ hb hc2]
  · rw [getCell_setCell_ne _ _ _ _ _ _ hp]
    exact hinv

/-- The flip folds of an Othello move only ever write the mover color, so
the freshly placed stone survives them. -/
lemma getCell_applyMoveBoard_origin (b : Board) (color : String) (row col : Int)
    (hrlen : row.toNat < b.length) (hclen : col.toNat < (b.getD row.toNat []).length) :
    getCell (applyMoveBoard b color row col) row.toNat col.toNat = some color := by
  unfold applyMoveBoard
  apply foldl_preserve (fun acc => getCell acc row.toNat col.toNat = some color)
  · intro acc d hinv
    simp only [applyDir]
    split
    · apply foldl_preserve (fun acc2 => getCell acc2 row.toNat col.toNat = some color)
      · intro acc2 p hinv2
        exact getCell_setCell_keep hinv2
      · exact hinv
    · exact hinv
  · exact getCell_setCell_eq _ _ _ _ hrlen hclen

/-- Counterexample for C1: on the initial Playing Othello room the request
(0,0) targets an Empty cell and is not a legal move for the turn owner (no
direction captures), yet the handler commits a changed board instead of
leaving the room untouched. -/
theorem othello_illegal_move_changes_state :
    getCell initialOthelloRoom.board 0 0 = none ∧
    isLegalMoveCell initialOthelloRoom.board "black" 0 0 = false ∧
    resultBoard (make_move "sX" (some initialOthelloRoom) 0 0) ≠ none ∧
    resultBoard (make_move "sX" (some initialOthelloRoom) 0 0) ≠
      some initialOthelloRoom.board := by
  refine ⟨by decide, by decide, by decide, by decide⟩

/-- C1 as amended: on a Playing Othello room, any request whose target cell
reads as Empty is applied — the stone appears at the target and the board is
the flip result — whether or not some direction captures, and the outcome
never depends on which connection sent the request. -/
theorem othello_empty_cell_move_always_applied
    (s1 s2 : String) (room : Room) (row col : Int) (rowList : List Cell)
    (hst : room.status = Status.PLAYING) (hty : room.type = RoomType.OTHELLO)
    (hrow : rowAtI room.board row = some rowList)
    (hcell : cellAtI rowList col = some none) :
    make_move s1 (some room) row col = make_move s2 (some room) row col ∧
    ∃ room2 events,
      make_move s1 (some room) row col = HandlerResult.ok room2 events ∧
      room2.board = applyMoveBoard room.board room.turn row col ∧
      getCell room2.board row.toNat col.toNat = some room.turn := by
  refine ⟨rfl, ?_⟩
  have hb : row.toNat < room.board.length := by
    unfold rowAtI at hrow
    split at hrow
    · omega
    · exact absurd hrow (by simp)
  have hrl : rowList = room.board.getD row.toNat [] := by
    unfold rowAtI at hrow
    split at hrow
    · simpa using hrow.symm
    · exact absurd hrow (by simp)
  have hc : col.toNat < (room.board.getD row.toNat []).length := by
    unfold cellAtI at hcell
    split at hcell
    · rw [← hrl]; omega
    · exact absurd hcell (by simp)
  have horig := getCell_applyMoveBoard_origin room.board room.turn row col hb hc
  rw [make_move_validated s1 room row col rowList hst hty hrow hcell]
  by_cases h1 : hasValidMoves (applyMoveBoard room.board room.turn row col)
      (opponentOf room.turn) = true
  · refine ⟨{ room with
        board := applyMoveBoard room.board room.turn row col
        turn := opponentOf room.turn },
      [Event.update_board (applyMoveBoard room.board room.turn row col)
        (opponentOf room.turn)], ?_, rfl, horig⟩
    simp [othello_apply, h1]
  · by_cases h2 : hasValidMoves (applyMoveBoard room.board room.turn row col)
        room.turn = true
    · refine ⟨{ room with board := applyMoveBoard room.board room.turn row col },
        [Event.update_board (applyMoveBoard room.board room.turn row col) room.turn,
         Event.notice ((opponentOf room.turn).toUpper ++ " has no moves! PASS.")],
        ?_, rfl, horig⟩
      simp [othello_apply, h1, h2]
    · refine ⟨{ room with
          board := applyMoveBoard room.board room.turn row col
          status := Status.FINISHED },
        [Event.game_over (applyMoveBoard room.board room.turn row col)
          (if (countScore (applyMoveBoard room.board room.turn row col)).white >
              (countScore (applyMoveBoard room.board room.turn row col)).black then "white"
           else if (countScore (applyMoveBoard room.board room.turn row col)).black >
              (countScore (applyMoveBoard room.board room.turn row col)).white then "black"
           else "draw")
          (countScore (applyMoveBoard room.board room.turn row col)).black
          (countScore (applyMoveBoard room.board room.turn row col)).white],
        ?_, rfl, horig⟩
      simp [othello_apply, h1, h2]

/-- Witness for the amended C1: the illegal request (0,0) from an arbitrary
connection ends with a black stone on (0,0). -/
theorem othello_empty_cell_move_always_applied_witness :
    make_move "anyone" (some initialOthelloRoom) 0 0 =
      make_move "sB" (some initialOthelloRoom) 0 0 ∧
    ∃ room2 events,
      make_move "anyone" (some initialOthelloRoom) 0 0 =
        HandlerResult.ok room2 events ∧
      room2.board = applyMoveBoard initialOthelloRoom.board initialOthelloRoom.turn 0 0 ∧
      getCell room2.board (Int.toNat 0) (Int.toNat 0) = some initialOthelloRoom.turn :=
  othello_empty_cell_move_always_applied "anyone" "sB" initialOthelloRoom 0 0
    (List.replicate 8 (none : Cell)) rfl rfl (by decide) (by decide)

-- ## Claim C5: forfeit on stalemate in the networked puzzle game

/-- C5: immediately after every accepted placement, if the seat about to
move has no hand shape placeable anywhere, the room finishes and the mover
is declared winner (the universally quantified `scores` never influence the
winner); otherwise the game continues with the turn passed to the other
seat. -/
theorem puzzle_forfeit_on_stalemate
    (s : String) (rng : Nat → Nat) (room : Room) (hands : Hands) (scores : Scores)
    (shape : ShapeDef) (shapeIndex row col : Int)
    (hst : room.status = Status.PLAYING) (hty : room.type = RoomType.PUZZLE)
    (hh : room.hands = some hands) (hsc : room.scores = some scores)
    (hcolor : room.turn = "black" ∨ room.turn = "white")
    (hhand : handAt (handOf hands room.turn) shapeIndex = some shape)
    (hcp : canPlace room.board shape.matrix row col = true) :
    (hasAnyValidMove (boardAfterClear room shape row col)
        (handOf hands (opponentOf room.turn)) = false →
      puzzle_move s rng (some room) shapeIndex row col =
        HandlerResult.ok
          { room with
              board := boardAfterClear room shape row col
              turn := opponentOf room.turn
              hands := some (handsAfter rng room hands shapeIndex)
              scores := some (scoresAfter room scores shape row col)
              status := Status.FINISHED }
          [Event.puzzle_game_over room.turn "no_moves"
            (boardAfterClear room shape row col)
            (scoresAfter room scores shape row col)]) ∧
    (hasAnyValidMove (boardAfterClear room shape row col)
        (handOf hands (opponentOf room.turn)) = true →
      puzzle_move s rng (some room) shapeIndex row col =
        HandlerResult.ok
          { room with
              board := boardAfterClear room shape row col
              turn := opponentOf room.turn
              hands := some (handsAfter rng room hands shapeIndex)
              scores := some (scoresAfter room scores shape row col) }
          [Event.update_puzzle_state (boardAfterClear room shape row col)
            (opponentOf room.turn) (handsAfter rng room hands shapeIndex)
            (scoresAfter room scores shape row col) row col shape.id]) := by
  have hbridge := handOf_handsAfter_opponent rng room hands shapeIndex hcolor
  rw [puzzle_move_validated s rng room hands scores shape shapeIndex row col
    hst hty hh hsc hcolor hhand hcp]
  constructor
  · intro h
    exact puzzle_apply_stalemate rng room hands scores shape shapeIndex row col
      (by rw [hbridge]; exact h)
  · intro h
    exact puzzle_apply_continue rng room hands scores shape shapeIndex row col
      (by rw [hbridge]; exact h)

/-- Witness for C5: on the near-full board of `c5Room`, black drops an I2,
row 0 and column 0 clear, white (on 700 points against 40 plus the move
score for the winner) cannot place its 3 by 3 square anywhere, and black wins by
forfeit. -/
theorem puzzle_forfeit_on_stalemate_witness :
    puzzle_move "sA" rngZero (some c5Room) 0 0 0 =
      HandlerResult.ok
        { c5Room with
            board := boardAfterClear c5Room shapeI2 0 0
            turn := opponentOf c5Room.turn
            hands := some (handsAfter rngZero c5Room c5Hands 0)
            scores := some (scoresAfter c5Room ⟨40, 700⟩ shapeI2 0 0)
            status := Status.FINISHED }
        [Event.puzzle_game_over c5Room.turn "no_moves"
          (boardAfterClear c5Room shapeI2 0 0)
          (scoresAfter c5Room ⟨40, 700⟩ shapeI2 0 0)] :=
  (puzzle_forfeit_on_stalemate "sA" rngZero c5Room c5Hands
    ⟨40, 700⟩ shapeI2 0 0 0
    rfl rfl rfl rfl (Or.inl rfl) (by decide) (by decide)).1 (by decide)

-- ## Claim C6: union clearing leaves no full line

/-- C6: for every accepted placement, the committed board is exactly the
spec resolveClear of the post-placement board (every cell in a full row
or full column reset to Empty, union semantics, everything else untouched),
and consequently the committed board has no full row and no full column. -/
theorem puzzle_clear_union_no_full_lines
    (s : String) (rng : Nat → Nat) (room : Room) (hands : Hands) (scores : Scores)
    (shape : ShapeDef) (shapeIndex row col : Int)
    (hdims : Dims 10 room.board)
    (hst : room.status = Status.PLAYING) (hty : room.type = RoomType.PUZZLE)
    (hh : room.hands = some hands) (hsc : room.scores = some scores)
    (hcolor : room.turn = "black" ∨ room.turn = "white")
    (hhand : handAt (handOf hands room.turn) shapeIndex = some shape)
    (hcp : canPlace room.board shape.matrix row col = true) :
    ∃ room2 events,
      puzzle_move s rng (some room) shapeIndex row col =
        HandlerResult.ok room2 events ∧
      room2.board = specResolveClear (placedBoard room shape row col)
        (fullRowsN 10 (placedBoard room shape row col))
        (fullColsN 10 (placedBoard room shape row col)) ∧
      fullRowsN 10 room2.board = [] ∧
      fullColsN 10 room2.board = [] := by
  have hd1 : Dims 10 (placedBoard room shape row col) :=
    dims_placeShape room.board shape.matrix row col room.turn hdims
  have hspec := boardAfterClear_spec room shape row col hd1
  rw [puzzle_move_validated s rng room hands scores shape shapeIndex row col
    hst hty hh hsc hcolor hhand hcp]
  by_cases h : hasAnyValidMove (boardAfterClear room shape row col)
      (handOf (handsAfter rng room hands shapeIndex) (opponentOf room.turn)) = true
  · rw [puzzle_apply_continue rng room hands scores shape shapeIndex row col h]
    exact ⟨_, _, rfl, hspec.1, hspec.2.1, hspec.2.2⟩
  · rw [puzzle_apply_stalemate rng room hands scores shape shapeIndex row col
      (Bool.eq_false_iff.mpr h)]
    exact ⟨_, _, rfl, hspec.1, hspec.2.1, hspec.2.2⟩

/-- Witness for C6: the I5 drop of `c2Room` fills row 0; the committed
board is the union clear of the placed board and retains no full line. -/
theorem puzzle_clear_union_no_full_lines_witness :
    ∃ room2 events,
      puzzle_move "sA" rngZero (some c2Room) 0 0 0 =
        HandlerResult.ok room2 events ∧
      room2.board = specResolveClear (placedBoard c2Room shapeI5 0 0)
        (fullRowsN 10 (placedBoard c2Room shapeI5 0 0))
        (fullColsN 10 (placedBoard c2Room shapeI5 0 0)) ∧
      fullRowsN 10 room2.board = [] ∧
      fullColsN 10 room2.board = [] :=
  puzzle_clear_union_no_full_lines "sA" rngZero c2Room c2Hands
    ⟨0, 0⟩ shapeI5 0 0 0
    (by decide) rfl rfl rfl rfl (Or.inl rfl) (by decide) (by decide)

-- ## Claim C2: clear scoring (combo is solo-client only; server is flat)

/-- Counterexample for C2: in the networked 10 by 10 game, black completes
one row with an area-5 I5; the server credits 5 + 1*100 = 105 points,
not the claimed 5 + baseScore[1] x 1 = 5 + 30 x 1 = 35. -/
theorem puzzle_networked_combo_scoring_false :
    resultScores (puzzle_move "sA" rngZero (some c2Room) 0 0 0) =
      some { black := 105, white := 0 } ∧
    BASE_SCORES 1 = some 30 ∧
    (105 : Nat) ≠ 5 + 30 * 1 := by
  refine ⟨by decide, by decide, by decide⟩

/-- C2 as amended: the networked server scores an accepted clearing
placement as placed cells + 100 per cleared line, with no combo state and
no all-clear bonus, leaving the score of the waiting seat untouched; the
combo rule of the claim — combo grows by the cleared line count and the
clear score is baseScore[lineCount] times the incremented combo, plus a
300 all-clear bonus — belongs to the solo 8 by 8 client engine. -/
theorem puzzle_scoring_flat_server_combo_solo :
    (∀ (s : String) (rng : Nat → Nat) (room : Room) (hands : Hands)
        (scores : Scores) (shape : ShapeDef) (shapeIndex row col : Int),
      room.status = Status.PLAYING → room.type = RoomType.PUZZLE →
      room.hands = some hands → room.scores = some scores →
      (room.turn = "black" ∨ room.turn = "white") →
      handAt (handOf hands room.turn) shapeIndex = some shape →
      canPlace room.board shape.matrix row col = true →
      totalLinesOf room shape row col > 0 →
      ∃ room2 events,
        puzzle_move s rng (some room) shapeIndex row col =
          HandlerResult.ok room2 events ∧
        room2.scores = some (scoresAfter room scores shape row col) ∧
        scoreOf (scoresAfter room scores shape row col) room.turn =
          scoreOf scores room.turn +
            (placedCount room shape row col +
              totalLinesOf room shape row col * 100) ∧
        scoreOf (scoresAfter room scores shape row col) (opponentOf room.turn) =
          scoreOf scores (opponentOf room.turn)) ∧
    (∀ (grid : Board) (placementScore combo movesSinceClear : Nat),
      (fullRowsN 8 grid).length + (fullColsN 8 grid).length > 0 →
      (checkLinesAndScore grid placementScore combo movesSinceClear).combo =
        combo + ((fullRowsN 8 grid).length + (fullColsN 8 grid).length) ∧
      (checkLinesAndScore grid placementScore combo movesSinceClear).scoreDelta =
        placementScore +
          baseLineScore ((fullRowsN 8 grid).length + (fullColsN 8 grid).length) *
            (combo + ((fullRowsN 8 grid).length + (fullColsN 8 grid).length)) +
          (if isAllClear8 grid (fullRowsN 8 grid) (fullColsN 8 grid) then 300
           else 0)) := by
  constructor
  · intro s rng room hands scores shape shapeIndex row col
      hst hty hh hsc hcolor hhand hcp htl
    have hsco := scoreOf_scoresAfter room scores shape row col hcolor
    have hms : moveScoreOf room shape row col =
        placedCount room shape row col + totalLinesOf room shape row col * 100 := by
      rw [moveScoreOf, if_pos htl]
    rw [puzzle_move_validated s rng room hands scores shape shapeIndex row col
      hst hty hh hsc hcolor hhand hcp]
    by_cases h : hasAnyValidMove (boardAfterClear room shape row col)
        (handOf (handsAfter rng room hands shapeIndex) (opponentOf room.turn)) = true
    · rw [puzzle_apply_continue rng room hands scores shape shapeIndex row col h]
      exact ⟨_, _, rfl, rfl, by rw [hsco.1, hms], hsco.2⟩
    · rw [puzzle_apply_stalemate rng room hands scores shape shapeIndex row col
        (Bool.eq_false_iff.mpr h)]
      exact ⟨_, _, rfl, rfl, by rw [hsco.1, hms], hsco.2⟩
  · intro grid placementScore combo movesSinceClear htl
    unfold checkLinesAndScore
    rw [if_pos htl]
    exact ⟨rfl, rfl⟩

/-- Witness for the amended C2: the networked I5 move of `c2Room` yields
0 + (5 + 1*100) for black and leaves white at 0; a solo 8 by 8 grid whose
row 0 is full (with one stray stone at (5,5)) yields combo 0 -> 1 and a
move score of 5 + 30 x 1 with no all-clear bonus. -/
theorem puzzle_scoring_flat_server_combo_solo_witness :
    (∃ room2 events,
      puzzle_move "sA" rngZero (some c2Room) 0 0 0 =
        HandlerResult.ok room2 events ∧
      room2.scores = some (scoresAfter c2Room ⟨0, 0⟩ shapeI5 0 0) ∧
      scoreOf (scoresAfter c2Room ⟨0, 0⟩ shapeI5 0 0) c2Room.turn =
        scoreOf ⟨0, 0⟩ c2Room.turn +
          (placedCount c2Room shapeI5 0 0 + totalLinesOf c2Room shapeI5 0 0 * 100) ∧
      scoreOf (scoresAfter c2Room ⟨0, 0⟩ shapeI5 0 0) (opponentOf c2Room.turn) =
        scoreOf ⟨0, 0⟩ (opponentOf c2Room.turn)) ∧
    ((checkLinesAndScore soloGrid 5 0 0).combo =
        0 + ((fullRowsN 8 soloGrid).length + (fullColsN 8 soloGrid).length) ∧
      (checkLinesAndScore soloGrid 5 0 0).scoreDelta =
        5 + baseLineScore ((fullRowsN 8 soloGrid).length +
              (fullColsN 8 soloGrid).length) *
            (0 + ((fullRowsN 8 soloGrid).length + (fullColsN 8 soloGrid).length)) +
          (if isAllClear8 soloGrid (fullRowsN 8 soloGrid) (fullColsN 8 soloGrid)
           then 300 else 0)) :=
  ⟨puzzle_scoring_flat_server_combo_solo.1 "sA" rngZero c2Room c2Hands
      ⟨0, 0⟩ shapeI5 0 0 0 rfl rfl rfl rfl (Or.inl rfl) (by decide) (by decide)
      (by decide),
   puzzle_scoring_flat_server_combo_solo.2 soloGrid 5 0 0 (by decide)⟩

-- ## Claim C7: characterization of canPlace

/-- C7: `canPlace` returns true exactly when every filled cell of the shape
matrix, overlaid with its top-left at (row, col), lies inside the 10 by 10
board and covers an Empty cell; unfilled matrix cells constrain nothing
(the quantification touches only cells holding 1). -/
theorem canPlace_iff (grid : Board) (matrix : List (List Nat)) (r c : Int)
    (hrect : ∀ row ∈ matrix, row.length = (matrix.headD []).length) :
    canPlace grid matrix r c = true ↔
      ∀ i j, i < matrix.length → j < (matrix.getD i []).length →
        (matrix.getD i []).getD j 0 = 1 →
        0 ≤ r + (i : Int) ∧ r + (i : Int) < 10 ∧
        0 ≤ c + (j : Int) ∧ c + (j : Int) < 10 ∧
        getCell grid (r + (i : Int)).toNat (c + (j : Int)).toNat = none := by
  simp only [canPlace, List.all_eq_true, List.mem_range]
  constructor
  · intro h i j hi hj h1
    have hmem : matrix.getD i [] ∈ matrix := by
      rw [List.getD_eq_getElem matrix [] hi]
      exact List.getElem_mem hi
    have hj2 : j < (matrix.headD []).length := by
      rw [← hrect _ hmem]
      exact hj
    have hin := h i hi j hj2
    rw [if_pos (beq_iff_eq.mpr h1)] at hin
    by_cases hb : r + (i : Int) < 0 ∨ 10 ≤ r + (i : Int) ∨
        c + (j : Int) < 0 ∨ 10 ≤ c + (j : Int)
    · rw [if_pos hb] at hin
      exact absurd hin (by simp)
    · rw [if_neg hb] at hin
      push_neg at hb
      refine ⟨by omega, by omega, by omega, by omega, ?_⟩
      simpa [getCellI] using hin
  · intro h i hi j hj
    by_cases h1 : (matrix.getD i []).getD j 0 = 1
    · rw [if_pos (beq_iff_eq.mpr h1)]
      have hmem : matrix.getD i [] ∈ matrix := by
        rw [List.getD_eq_getElem matrix [] hi]
        exact List.getElem_mem hi
      have hj2 : j < (matrix.getD i []).length := by
        rw [hrect _ hmem]
        exact hj
      obtain ⟨hb1, hb2, hb3, hb4, hcell⟩ := h i j hi hj2 h1
      rw [if_neg (by omega)]
      simp [getCellI, hcell]
    · rw [if_neg (fun hq => h1 (beq_iff_eq.mp hq))]

/-- Witness for C7: instantiated on the empty 10 by 10 board with the
horizontal domino shape at the origin. -/
theorem canPlace_iff_witness :
    canPlace initialPuzzleBoard [[1, 1]] 0 0 = true ↔
      ∀ i j, i < ([[1, 1]] : List (List Nat)).length →
        j < (([[1, 1]] : List (List Nat)).getD i []).length →
        (([[1, 1]] : List (List Nat)).getD i []).getD j 0 = 1 →
        0 ≤ (0 : Int) + (i : Int) ∧ (0 : Int) + (i : Int) < 10 ∧
        0 ≤ (0 : Int) + (j : Int) ∧ (0 : Int) + (j : Int) < 10 ∧
        getCell initialPuzzleBoard ((0 : Int) + (i : Int)).toNat
          ((0 : Int) + (j : Int)).toNat = none :=
  canPlace_iff initialPuzzleBoard [[1, 1]] 0 0 (by decide)

-- ## Claim C8: batch hand refill exactly on an all-empty hand

/-- C8: after every accepted placement the mover hand first loses the
played slot; it is then replaced by a freshly dealt batch exactly when all
three slots read empty, and the fresh deal always consists of 3 occupied
slots. While any slot is still occupied, the hand is only the slot
removal — no refill happens. -/
theorem hand_refill_batch
    (s : String) (rng : Nat → Nat) (room : Room) (hands : Hands) (scores : Scores)
    (shape : ShapeDef) (shapeIndex row col : Int)
    (hst : room.status = Status.PLAYING) (hty : room.type = RoomType.PUZZLE)
    (hh : room.hands = some hands) (hsc : room.scores = some scores)
    (hcolor : room.turn = "black" ∨ room.turn = "white")
    (hhand : handAt (handOf hands room.turn) shapeIndex = some shape)
    (hcp : canPlace room.board shape.matrix row col = true) :
    ∃ room2 events,
      puzzle_move s rng (some room) shapeIndex row col =
        HandlerResult.ok room2 events ∧
      room2.hands = some (handsAfter rng room hands shapeIndex) ∧
      handOf (handsAfter rng room hands shapeIndex) room.turn =
        handAfter rng room hands shapeIndex ∧
      (((handOf hands room.turn).set shapeIndex.toNat none).all
          (fun h => h == none) = true →
        handAfter rng room hands shapeIndex = (getRandomShapes rng 3).map some ∧
        (handAfter rng room hands shapeIndex).length = 3 ∧
        ∀ x ∈ handAfter rng room hands shapeIndex, x.isSome = true) ∧
      (((handOf hands room.turn).set shapeIndex.toNat none).all
          (fun h => h == none) = false →
        handAfter rng room hands shapeIndex =
          (handOf hands room.turn).set shapeIndex.toNat none) := by
  have hself := handOf_handsAfter_self rng room hands shapeIndex hcolor
  have hrefill : ((handOf hands room.turn).set shapeIndex.toNat none).all
        (fun h => h == none) = true →
      handAfter rng room hands shapeIndex = (getRandomShapes rng 3).map some ∧
      (handAfter rng room hands shapeIndex).length = 3 ∧
      ∀ x ∈ handAfter rng room hands shapeIndex, x.isSome = true := by
    intro hall
    have he : handAfter rng room hands shapeIndex = (getRandomShapes rng 3).map some := by
      unfold handAfter
      rw [if_pos hall]
    refine ⟨he, ?_, ?_⟩
    · rw [he]
      simp [getRandomShapes]
    · rw [he]
      intro x hx
      rcases List.mem_map.mp hx with ⟨y, _, rfl⟩
      rfl
  have hkeep : ((handOf hands room.turn).set shapeIndex.toNat none).all
        (fun h => h == none) = false →
      handAfter rng room hands shapeIndex =
        (handOf hands room.turn).set shapeIndex.toNat none := by
    intro hfa
    unfold handAfter
    rw [if_neg (by rw [hfa]; exact Bool.false_ne_true)]
  rw [puzzle_move_validated s rng room hands scores shape shapeIndex row col
    hst hty hh hsc hcolor hhand hcp]
  by_cases h : hasAnyValidMove (boardAfterClear room shape row col)
      (handOf (handsAfter rng room hands shapeIndex) (opponentOf room.turn)) = true
  · rw [puzzle_apply_continue rng room hands scores shape shapeIndex row col h]
    exact ⟨_, _, rfl, rfl, hself, hrefill, hkeep⟩
  · rw [puzzle_apply_stalemate rng room hands scores shape shapeIndex row col
      (Bool.eq_false_iff.mpr h)]
    exact ⟨_, _, rfl, rfl, hself, hrefill, hkeep⟩

/-- Witness for C8: in `c2Room` black plays its last remaining shape, the
hand empties, and exactly one fresh batch of 3 occupied slots is dealt. -/
theorem hand_refill_batch_witness :
    ∃ room2 events,
      puzzle_move "sA" rngZero (some c2Room) 0 0 0 =
        HandlerResult.ok room2 events ∧
      room2.hands = some (handsAfter rngZero c2Room c2Hands 0) ∧
      handOf (handsAfter rngZero c2Room c2Hands 0) c2Room.turn =
        handAfter rngZero c2Room c2Hands 0 ∧
      (((handOf c2Hands c2Room.turn).set (Int.toNat 0) none).all
          (fun h => h == none) = true →
        handAfter rngZero c2Room c2Hands 0 = (getRandomShapes rngZero 3).map some ∧
        (handAfter rngZero c2Room c2Hands 0).length = 3 ∧
        ∀ x ∈ handAfter rngZero c2Room c2Hands 0, x.isSome = true) ∧
      (((handOf c2Hands c2Room.turn).set (Int.toNat 0) none).all
          (fun h => h == none) = false →
        handAfter rngZero c2Room c2Hands 0 =
          (handOf c2Hands c2Room.turn).set (Int.toNat 0) none) :=
  hand_refill_batch "sA" rngZero c2Room c2Hands
    ⟨0, 0⟩ shapeI5 0 0 0 rfl rfl rfl rfl (Or.inl rfl) (by decide) (by decide)

-- ## Claim C9: the puzzle handler never consults the sender

/-- C9: the `puzzle_move` transition is a function of the payload, the room
and the random draws only — the sending connection is never consulted
(the source validates against and attributes to `room.turn`), so identical
payloads from different senders produce identical successor states. -/
theorem puzzle_move_sender_independent (s1 s2 : String) (rng : Nat → Nat)
    (room? : Option Room) (shapeIndex row col : Int) :
    puzzle_move s1 rng room? shapeIndex row col =
      puzzle_move s2 rng room? shapeIndex row col := rfl

-- ## Claim C10: joins below capacity succeed for any status

/-- C10: an existing room of the matching kind with fewer than 2 seated
players accepts a join whatever its status; the joiner is appended (black
for an empty seat list, white otherwise), the board is kept as is, and if
the join fills the second seat the status is set to Playing
unconditionally — reviving Finished or Aborted rooms. -/
theorem join_below_capacity_revives
    (sid name roomId : String) (rng rng2 : Nat → Nat) (roomO roomP : Room)
    (hO : roomO.type = RoomType.OTHELLO) (hOlen : roomO.players.length < 2)
    (hP : roomP.type = RoomType.PUZZLE) (hPlen : roomP.players.length < 2) :
    ((join_room sid name roomId (some roomO)).1.players =
        roomO.players ++ [⟨sid, name,
          if roomO.players.length == 0 then "black" else "white"⟩] ∧
      (join_room sid name roomId (some roomO)).1.board = roomO.board ∧
      (roomO.players.length = 1 →
        (join_room sid name roomId (some roomO)).1.status = Status.PLAYING)) ∧
    ((join_puzzle_room rng rng2 sid name roomId (some roomP)).1.players =
        roomP.players ++ [⟨sid, name,
          if roomP.players.length == 0 then "black" else "white"⟩] ∧
      (join_puzzle_room rng rng2 sid name roomId (some roomP)).1.board =
        roomP.board ∧
      (roomP.players.length = 1 →
        (join_puzzle_room rng rng2 sid name roomId (some roomP)).1.status =
          Status.PLAYING)) := by
  constructor
  · have h01 : roomO.players.length = 0 ∨ roomO.players.length = 1 := by omega
    rcases h01 with h | h <;>
      refine ⟨?_, ?_, ?_⟩ <;>
        simp [join_room, hO, h]
  · have h01 : roomP.players.length = 0 ∨ roomP.players.length = 1 := by omega
    rcases h01 with h | h <;>
      refine ⟨?_, ?_, ?_⟩ <;>
        simp [join_puzzle_room, hP, h]

/-- Witness for C10: a second joiner revives a Finished Othello room and an
Aborted puzzle room into live games on their existing boards. -/
theorem join_below_capacity_revives_witness :
    (join_room "sC" "C" "R1" (some finishedOthelloRoom)).1.status =
      Status.PLAYING ∧
    (join_room "sC" "C" "R1" (some finishedOthelloRoom)).1.board =
      finishedOthelloRoom.board ∧
    (join_puzzle_room rngZero rngZero "sC" "C" "R1"
      (some abortedPuzzleRoom)).1.status = Status.PLAYING ∧
    (join_puzzle_room rngZero rngZero "sC" "C" "R1"
      (some abortedPuzzleRoom)).1.board = abortedPuzzleRoom.board :=
  have h := join_below_capacity_revives "sC" "C" "R1" rngZero rngZero
    finishedOthelloRoom abortedPuzzleRoom rfl (by decide) rfl (by decide)
  ⟨h.1.2.2 rfl, h.1.2.1, h.2.2.2 rfl, h.2.2.1⟩

end MyOthello
